import Mathlib

/-!
Verification of the UAV strategic deconfliction engine
(conflict_checker.py and utils.py).

Shallow embedding conventions:
* Timestamps are modelled as rational numbers of seconds (the code parses
  ISO strings into datetime objects and then only ever uses differences in
  seconds and comparisons; the string round-trip through isoformat is the
  identity on the parsed value).
* A waypoint / path sample is a record of three rational coordinates and a
  timestamp.  The code accepts two coordinate encodings (named fields x/y/z
  with z defaulting to 0, or a packed position array); both denote the same
  triple, so the embedding works with the normalised triple directly.
* Python floats are idealised as exact rationals.  Every comparison the code
  makes of the form sqrt(s) <= c (c a nonnegative constant or parameter) is
  embedded as the equivalent 0 <= c and s <= c^2, so the whole sweep stays
  inside the rationals and is executable.  The only genuinely real-valued
  quantity, the presentation value round(sqrt(s), 2) stored in the report's
  distance field, is modelled separately by reportedDist below.
* Python round() is round-half-to-even; roundHEQ models it on rationals.
-/

namespace FlytBase

/-- A timestamped 3D sample: the normalised form of the code's waypoint
dictionaries ({x, y, z, timestamp} or {position: [x,y,z], timestamp}),
with the timestamp already parsed to seconds. -/
structure Waypoint where
  x : ℚ
  y : ℚ
  z : ℚ
  t : ℚ
deriving DecidableEq, Repr

/-- Round-half-to-even on rationals, the semantics of Python's round()
restricted to exact inputs: at an exact .5 tie the even neighbour wins,
otherwise the nearest integer. -/
def roundHEQ (x : ℚ) : ℤ :=
  if x - ⌊x⌋ = 1/2 then (if 2 ∣ ⌊x⌋ then ⌊x⌋ else ⌊x⌋ + 1) else round x

/-- Python's round(v, 2): round to two decimal places (half to even). -/
def round2 (x : ℚ) : ℚ := (roundHEQ (100 * x) : ℚ) / 100

/-- The number of interpolation steps of utils.interpolate_waypoints:
max(1, int(duration / step_seconds)).  For the positive durations at which
it is used, Python's int() truncation coincides with the floor. -/
def numSteps (duration step : ℚ) : ℕ := max 1 (⌊duration / step⌋.toNat)

/-- The interpolation parameter of utils.interpolate_waypoints:
t = i / num_steps if num_steps > 0 else 0. -/
def interpFrac (n i : ℕ) : ℚ := if 0 < n then (i : ℚ) / (n : ℚ) else 0

/-- utils.interpolate_waypoints: interpolate between two waypoints.  If the
duration is nonpositive only the first waypoint is emitted; otherwise
numSteps + 1 samples are produced at parameter i / numSteps on each axis,
with timestamps start + i*step. -/
def interpolate_waypoints (wp1 wp2 : Waypoint) (step : ℚ) : List Waypoint :=
  if wp2.t - wp1.t ≤ 0 then [wp1]
  else
    (List.range (numSteps (wp2.t - wp1.t) step + 1)).map (fun i =>
      ⟨wp1.x + interpFrac (numSteps (wp2.t - wp1.t) step) i * (wp2.x - wp1.x),
       wp1.y + interpFrac (numSteps (wp2.t - wp1.t) step) i * (wp2.y - wp1.y),
       wp1.z + interpFrac (numSteps (wp2.t - wp1.t) step) i * (wp2.z - wp1.z),
       wp1.t + (i : ℚ) * step⟩)

/-- conflict_checker.generate_continuous_path: interpolate every consecutive
waypoint pair and finally append the last waypoint verbatim.  The loop over
index pairs (i, i+1) is the zip of the list with its tail. -/
def generate_continuous_path (wps : List Waypoint) (step : ℚ) : List Waypoint :=
  (wps.zip wps.tail).flatMap (fun p => interpolate_waypoints p.1 p.2 step)
    ++ (match wps.getLast? with
        | some w => [w]
        | none => [])

/-- The bracketing-waypoint scan of get_drone_position_at_time: walk the
path keeping the last sample with timestamp <= target, and stop at the
first sample with timestamp > target. -/
def bracketScan (target : ℚ) (before : Option Waypoint) :
    List Waypoint → Option Waypoint × Option Waypoint
  | [] => (before, none)
  | p :: rest =>
    if p.t ≤ target then bracketScan target (some p) rest else (before, some p)

/-- The (before, after) bracketing pair found by the scan loop of
get_drone_position_at_time. -/
def findBrackets (path : List Waypoint) (target : ℚ) :
    Option Waypoint × Option Waypoint :=
  bracketScan target none path

/-- conflict_checker.get_drone_position_at_time: None before the flight
starts, final position held constant after it ends, linear interpolation
between the brackets otherwise (the empty-path early return is the
(none, _) case of the bracket scan). -/
def get_drone_position_at_time (path : List Waypoint) (target : ℚ) :
    Option Waypoint :=
  match findBrackets path target with
  | (none, _) => none
  | (some b, none) => some ⟨b.x, b.y, b.z, target⟩
  | (some b, some a) =>
    let total := a.t - b.t
    if total = 0 then some ⟨b.x, b.y, b.z, target⟩
    else
      let factor := (target - b.t) / total
      some ⟨b.x + factor * (a.x - b.x),
            b.y + factor * (a.y - b.y),
            b.z + factor * (a.z - b.z),
            target⟩

/-- min(times) of a nonempty path, as Python's min over the parsed
timestamp list. -/
def pathMinTime (w : Waypoint) (ws : List Waypoint) : ℚ :=
  (ws.map Waypoint.t).foldl min w.t

/-- max(times) of a nonempty path. -/
def pathMaxTime (w : Waypoint) (ws : List Waypoint) : ℚ :=
  (ws.map Waypoint.t).foldl max w.t

/-- The sample times of the detection sweep: current_time from start while
current_time <= stop, advancing 5 seconds per iteration.  Used only when
start < stop (the code returns earlier otherwise). -/
def scanTimes (start stop : ℚ) : List ℚ :=
  (List.range (⌊(stop - start) / 5⌋.toNat + 1)).map (fun i => start + 5 * i)

/-- One detected conflict of detect_path_conflicts.  location (sim drone)
and primary_location are stored rounded to two decimals as in the code;
time is the exact sample time (the code stores its second-precision
strftime rendering, and sample times are second-aligned in practice);
distSq is the exact squared separation - the code's distance field stores
round(sqrt distSq, 2), modelled by reportedDist below.  The code's
drone_id, primary_time, sim_time and time_difference fields duplicate
conflicting_drone, time and the constant 0.0 and are omitted. -/
structure Conflict where
  conflicting_drone : String
  loc_x : ℚ
  loc_y : ℚ
  loc_z : ℚ
  ploc_x : ℚ
  ploc_y : ℚ
  ploc_z : ℚ
  time : ℚ
  distSq : ℚ
deriving DecidableEq, Repr

/-- Squared distance between the (rounded) primary locations of two
conflict events, the quantity whose square root the deduplication
compares with 50. -/
def primSpatialSq (a b : Conflict) : ℚ :=
  (a.ploc_x - b.ploc_x) ^ 2 + (a.ploc_y - b.ploc_y) ^ 2
    + (a.ploc_z - b.ploc_z) ^ 2

/-- The deduplication proximity rule: within 120 seconds OR within 50
distance units between primary locations (sqrt s <= 50 iff s <= 2500). -/
def near (e ex : Conflict) : Prop :=
  |e.time - ex.time| ≤ 120 ∨ primSpatialSq e ex ≤ 2500

instance (e ex : Conflict) : Decidable (near e ex) :=
  inferInstanceAs (Decidable (_ ∨ _))

/-- One deduplication step: a new event matching any accepted report under
the OR rule is discarded, otherwise it is appended (the code's loop over
the accepted reports with a first-match break is the existence test). -/
def dedupStep (acc : List Conflict) (e : Conflict) : List Conflict :=
  if ∃ ex ∈ acc, near e ex then acc else acc ++ [e]

/-- The accumulate-and-compare deduplication applied to the raw events in
discovery order (the code fuses this fold into the sweep loop, comparing
each candidate against the reports accepted so far). -/
def dedupe (evs : List Conflict) : List Conflict :=
  evs.foldl dedupStep []

/-- The raw (pre-deduplication) conflict events of
conflict_checker.detect_path_conflicts: empty-path guard, temporal-overlap
window guard, then the 5-second sweep, emitting an event wherever both
drones are active and their separation is within the safety distance
(sqrt dsq <= safety iff 0 <= safety and dsq <= safety^2). -/
def rawConflicts (primary sim : List Waypoint) (sim_drone_id : String)
    (safety : ℚ) : List Conflict :=
  match primary, sim with
  | [], _ => []
  | _ :: _, [] => []
  | p0 :: ps, s0 :: ss =>
    let start := max (pathMinTime p0 ps) (pathMinTime s0 ss)
    let stop := min (pathMaxTime p0 ps) (pathMaxTime s0 ss)
    if stop ≤ start then []
    else
      (scanTimes start stop).filterMap (fun tm =>
        match get_drone_position_at_time (p0 :: ps) tm,
              get_drone_position_at_time (s0 :: ss) tm with
        | some pp, some sp =>
          let dsq := (pp.x - sp.x) ^ 2 + (pp.y - sp.y) ^ 2 + (pp.z - sp.z) ^ 2
          if 0 ≤ safety ∧ dsq ≤ safety ^ 2 then
            some ⟨sim_drone_id,
                  round2 sp.x, round2 sp.y, round2 sp.z,
                  round2 pp.x, round2 pp.y, round2 pp.z,
                  tm, dsq⟩
          else none
        | _, _ => none)

/-- conflict_checker.detect_path_conflicts: the sweep with incremental
deduplication.  Since the code compares each candidate against the reports
accepted so far and otherwise appends it, the fused loop equals the fold
of dedupStep over the raw events in discovery order. -/
def detect_path_conflicts (primary sim : List Waypoint)
    (sim_drone_id : String) (safety : ℚ) : List Conflict :=
  dedupe (rawConflicts primary sim sim_drone_id safety)

/-- A simulated flight record: resolved identifier plus waypoints. -/
structure SimFlight where
  id : String
  waypoints : List Waypoint
deriving DecidableEq, Repr

/-- conflict_checker.check_deconfliction: generate continuous paths at a
1-second step, run the detector against every simulated flight, accumulate
the reports and derive the status string.  The unused legacy time_threshold
parameter is omitted. -/
def check_deconfliction (primary : List Waypoint) (flights : List SimFlight)
    (safety : ℚ) : String × List Conflict :=
  let ppath := generate_continuous_path primary 1
  let conflicts := flights.flatMap (fun f =>
    detect_path_conflicts ppath (generate_continuous_path f.waypoints 1)
      f.id safety)
  (if conflicts.isEmpty then "clear" else "conflict", conflicts)

/-- Timestamps within a path are non-decreasing. -/
def timesSorted (l : List Waypoint) : Prop :=
  List.Chain' (· ≤ ·) (l.map Waypoint.t)

instance (l : List Waypoint) : Decidable (timesSorted l) :=
  inferInstanceAs (Decidable (List.Chain' _ _))

/-- A Python naive datetime value, to second granularity (the granularity
at which the engine uses parsed timestamps). -/
structure PyDateTime where
  year : ℕ
  month : ℕ
  day : ℕ
  hour : ℕ
  minute : ℕ
  second : ℕ
deriving DecidableEq, Repr

/-- Python str.replace applied with the one-character pattern Z and the
replacement +00:00: every occurrence of Z is replaced.  Strings are
modelled as character lists. -/
def replaceZ (s : List Char) : List Char :=
  s.flatMap (fun c => if c = 'Z' then ['+', '0', '0', ':', '0', '0'] else [c])

/-- Split a character list at every colon (the field structure datetime's
strptime imposes between the percent-H, percent-M and percent-S
directives). -/
def splitCols : List Char → List (List Char)
  | [] => [[]]
  | c :: rest =>
    if c = ':' then [] :: splitCols rest
    else
      match splitCols rest with
      | g :: gs => (c :: g) :: gs
      | [] => [[c]]

/-- One numeric strptime field: one or two digits whose value is at most
the effective bound of the directive as datetime.strptime accepts it
(23 for hours, 59 for minutes and seconds). -/
def parseField (cs : List Char) (hi : ℕ) : Option ℕ :=
  if cs ≠ [] ∧ cs.length ≤ 2 ∧ cs.all (fun c => c.isDigit) then
    let v := cs.foldl (fun acc c => 10 * acc + (c.toNat - 48)) 0
    if v ≤ hi then some v else none
  else none

/-- Modelled from the Python standard library: datetime.strptime with the
format percent-H colon percent-M colon percent-S.  On success it yields the
hour, minute and second; unmatched text or out-of-range fields fail.
Although the internal strptime regex for percent-S matches 60 and 61, the
datetime constructor then raises ValueError (second must be in 0..59), so
datetime.strptime as called here fails on such strings: the effective
seconds range is 0..59 and a leap-second string behaves as a parse
failure.  Missing date directives default to 1900-01-01 (documented
strptime behaviour). -/
def strptimeHMS (s : List Char) : Option (ℕ × ℕ × ℕ) :=
  match splitCols s with
  | [h, m, sec] =>
    match parseField h 23, parseField m 59, parseField sec 59 with
    | some hv, some mv, some sv => some (hv, mv, sv)
    | _, _, _ => none
  | _ => none

/-- utils.parse_time.  Strings are modelled as character lists; the
stdlib datetime.fromisoformat parser (applied on the branch where the
string contains a T) is taken as a parameter returning none exactly when
it raises ValueError; now is the value of datetime.now(), substituted when
parsing fails.  On the no-T branch the code calls
datetime.strptime(s, percent-H colon percent-M colon percent-S), whose
result carries the strptime default date 1900-01-01. -/
def parse_time (fromiso : List Char → Option PyDateTime) (now : PyDateTime)
    (s : List Char) : PyDateTime :=
  if s.contains 'T' then
    match (if s.getLast? = some 'Z' then fromiso (replaceZ s) else fromiso s) with
    | some d => d
    | none => now
  else
    match strptimeHMS s with
    | some (h, m, sec) => ⟨1900, 1, 1, h, m, sec⟩
    | none => now

/-- Round-half-to-even on the reals, used for the presentation value the
code stores in a report's distance field. -/
noncomputable def roundHER (x : ℝ) : ℤ :=
  if x - ⌊x⌋ = 1/2 then (if 2 ∣ ⌊x⌋ then ⌊x⌋ else ⌊x⌋ + 1) else round x

/-- The value the code stores in a report's distance field:
round(distance, 2) where distance = sqrt(distSq). -/
noncomputable def reportedDist (c : Conflict) : ℝ :=
  (roundHER (100 * Real.sqrt (c.distSq : ℝ)) : ℝ) / 100


/-! Concrete inputs used by counterexamples and witnesses. -/

/-- A primary path moving along the x axis at one unit per second for 260
seconds (so its sampled positions at 0, 130 and 260 are pairwise far). -/
def ce2P : List Waypoint := [⟨0,0,0,0⟩, ⟨260,0,0,260⟩]

/-- An other path that tracks the primary's x coordinate but sits 100
units away on the y axis except at seconds 0, 130 and 260, where it meets
the primary exactly. -/
def ce2S : List Waypoint :=
  [⟨0,0,0,0⟩, ⟨5,100,0,5⟩, ⟨125,100,0,125⟩, ⟨130,0,0,130⟩, ⟨135,100,0,135⟩,
   ⟨255,100,0,255⟩, ⟨260,0,0,260⟩]

/-- The raw event of the ce2 pair at second 0. -/
def ce2e1 : Conflict := ⟨"S", 0,0,0, 0,0,0, 0, 0⟩

/-- The raw event of the ce2 pair at second 130. -/
def ce2e2 : Conflict := ⟨"S", 130,0,0, 130,0,0, 130, 0⟩

/-- The raw event of the ce2 pair at second 260. -/
def ce2e3 : Conflict := ⟨"S", 260,0,0, 260,0,0, 260, 0⟩

/-- A drone parked at the origin from second 0 to second 10. -/
def pathStat0 : List Waypoint := [⟨0,0,0,0⟩, ⟨0,0,0,10⟩]

/-- A drone parked at x = 0.006 from second 0 to second 10. -/
def pathStat6 : List Waypoint := [⟨3/500,0,0,0⟩, ⟨3/500,0,0,10⟩]

/-- The raw event of pathStat0 against itself at a given sample time. -/
def statEv (tm : ℚ) : Conflict := ⟨"x", 0,0,0, 0,0,0, tm, 0⟩

/-- The raw event of pathStat0 against pathStat6 at a given sample time:
the sim location 0.006 is stored rounded to 0.01, and the squared
separation is 0.006^2 = 9/250000. -/
def statEv6 (tm : ℚ) : Conflict := ⟨"S", 1/100,0,0, 0,0,0, tm, 9/250000⟩

/-! Helper lemmas about the bracketing scan. -/

theorem bracketScan_freeze (target : ℚ) :
    ∀ (rest : List Waypoint) (p : Waypoint) (b0 : Option Waypoint),
      (∀ q ∈ p :: rest, q.t ≤ target) →
      ∃ lw, (p :: rest).getLast? = some lw ∧
        bracketScan target b0 (p :: rest) = (some lw, none) := by
  intro rest
  induction rest with
  | nil =>
    intro p b0 h
    refine ⟨p, rfl, ?_⟩
    simp only [bracketScan, if_pos (h p (by simp))]
  | cons r rs ih =>
    intro p b0 h
    obtain ⟨lw, h1, h2⟩ := ih r (some p) (fun q hq => h q (List.mem_cons_of_mem _ hq))
    refine ⟨lw, ?_, ?_⟩
    · rw [List.getLast?_cons_cons]
      exact h1
    · simp only [bracketScan, if_pos (h p (by simp))]
      exact h2

theorem bracketScan_post (target : ℚ) :
    ∀ (l : List Waypoint) (b0 : Option Waypoint) (b a : Waypoint),
      (∀ x, b0 = some x → x.t ≤ target) →
      bracketScan target b0 l = (some b, some a) →
      b.t ≤ target ∧ target < a.t := by
  intro l
  induction l with
  | nil =>
    intro b0 b a h1 h2
    simp only [bracketScan] at h2
    injection h2 with h3 h4
    exact Option.noConfusion h4
  | cons p rest ih =>
    intro b0 b a h1 h2
    by_cases hp : p.t ≤ target
    · rw [bracketScan, if_pos hp] at h2
      exact ih (some p) b a (fun x hx => by cases hx; exact hp) h2
    · rw [bracketScan, if_neg hp] at h2
      injection h2 with hb ha
      injection ha with ha'
      subst ha'
      exact ⟨h1 b hb, lt_of_not_le hp⟩

/-- Claim C1: two non-empty paths whose temporal overlap window is empty
(the later of the two minimum timestamps is at or after the earlier of the
two maximum timestamps) produce no conflict events, regardless of the
coordinates of any waypoint. -/
theorem claim_C1_no_temporal_overlap (p0 s0 : Waypoint) (ps ss : List Waypoint)
    (sid : String) (safety : ℚ)
    (h : min (pathMaxTime p0 ps) (pathMaxTime s0 ss)
          ≤ max (pathMinTime p0 ps) (pathMinTime s0 ss)) :
    detect_path_conflicts (p0 :: ps) (s0 :: ss) sid safety = [] := by
  simp only [detect_path_conflicts, rawConflicts]
  rw [if_pos h]
  rfl

/-- Witness for claim C1: a primary path active on seconds 0 to 300 and an
other path active on 600 to 900 at the very same coordinates give no
conflicts. -/
theorem claim_C1_witness :
    (min (pathMaxTime ⟨0,0,0,0⟩ [⟨0,0,0,300⟩]) (pathMaxTime ⟨0,0,0,600⟩ [⟨0,0,0,900⟩])
      ≤ max (pathMinTime ⟨0,0,0,0⟩ [⟨0,0,0,300⟩]) (pathMinTime ⟨0,0,0,600⟩ [⟨0,0,0,900⟩]))
    ∧ detect_path_conflicts [⟨0,0,0,0⟩, ⟨0,0,0,300⟩] [⟨0,0,0,600⟩, ⟨0,0,0,900⟩] "SIM" 2 = [] :=
  ⟨by decide, claim_C1_no_temporal_overlap ⟨0,0,0,0⟩ ⟨0,0,0,600⟩ [⟨0,0,0,300⟩]
    [⟨0,0,0,900⟩] "SIM" 2 (by decide)⟩

/-- Claim C3: on a non-empty path, the position query returns the
not-active result for query times strictly before every sample, and the
final sample's position held constant (with the query time as timestamp)
for query times at or after every sample. -/
theorem claim_C3_outside_range (w : Waypoint) (ws : List Waypoint) (target : ℚ) :
    ((∀ q ∈ w :: ws, target < q.t) →
      get_drone_position_at_time (w :: ws) target = none)
    ∧ ((∀ q ∈ w :: ws, q.t ≤ target) →
      ∃ lw, (w :: ws).getLast? = some lw ∧
        get_drone_position_at_time (w :: ws) target = some ⟨lw.x, lw.y, lw.z, target⟩) := by
  constructor
  · intro h
    have hw : ¬ w.t ≤ target := not_le.mpr (h w (by simp))
    simp only [get_drone_position_at_time, findBrackets, bracketScan, if_neg hw]
  · intro h
    obtain ⟨lw, h1, h2⟩ := bracketScan_freeze target ws w none h
    refine ⟨lw, h1, ?_⟩
    simp only [get_drone_position_at_time, findBrackets, h2]

/-- Witness for claim C3: on the one-sample path at time 10, querying at
time 5 yields none and querying at time 20 yields the sample's position
with timestamp 20. -/
theorem claim_C3_witness :
    get_drone_position_at_time [⟨1,2,3,10⟩] 5 = none
    ∧ ∃ lw, ([⟨1,2,3,10⟩] : List Waypoint).getLast? = some lw
        ∧ get_drone_position_at_time [⟨1,2,3,10⟩] 20 = some ⟨lw.x, lw.y, lw.z, 20⟩ :=
  ⟨(claim_C3_outside_range ⟨1,2,3,10⟩ [] 5).1 (by decide),
   (claim_C3_outside_range ⟨1,2,3,10⟩ [] 20).2 (by decide)⟩

/-- Claim C10: whenever the bracketing scan produces both a before and an
after sample, the before sample's time is at most the query time and the
after sample's time is strictly greater, so the interpolation denominator
is strictly positive (the zero-denominator guard branch is unreachable);
and the interpolation step count of interpolate_waypoints is at least 1,
so its division is never by zero. -/
theorem claim_C10_no_div_zero :
    (∀ (path : List Waypoint) (target : ℚ) (b a : Waypoint),
      findBrackets path target = (some b, some a) →
      b.t ≤ target ∧ target < a.t ∧ 0 < a.t - b.t)
    ∧ (∀ duration step : ℚ, 1 ≤ numSteps duration step) := by
  constructor
  · intro path target b a h
    obtain ⟨h1, h2⟩ :=
      bracketScan_post target path none b a (fun x hx => by cases hx) h
    exact ⟨h1, h2, by linarith⟩
  · intro duration step
    exact le_max_left _ _

/-- Witness for claim C10: brackets found around query time 5 on a
two-sample path, and the step count at duration 7 and step 2. -/
theorem claim_C10_witness :
    (Waypoint.t ⟨0,0,0,0⟩ ≤ 5 ∧ (5:ℚ) < Waypoint.t ⟨1,1,1,10⟩
      ∧ 0 < Waypoint.t ⟨1,1,1,10⟩ - Waypoint.t ⟨0,0,0,0⟩)
    ∧ 1 ≤ numSteps 7 2 :=
  ⟨claim_C10_no_div_zero.1 [⟨0,0,0,0⟩, ⟨1,1,1,10⟩] 5 ⟨0,0,0,0⟩ ⟨1,1,1,10⟩ (by decide),
   claim_C10_no_div_zero.2 7 2⟩

/-! Helper lemmas about the deduplication fold. -/

theorem primSpatialSq_comm (a b : Conflict) : primSpatialSq a b = primSpatialSq b a := by
  unfold primSpatialSq
  ring

theorem foldl_dedupStep_stay (l : List Conflict) :
    ∀ acc, (∀ e ∈ l, ∃ ex ∈ acc, near e ex) → List.foldl dedupStep acc l = acc := by
  induction l with
  | nil => intro acc h; rfl
  | cons x xs ih =>
    intro acc h
    have hx : dedupStep acc x = acc := if_pos (h x (by simp))
    rw [List.foldl_cons, hx]
    exact ih acc (fun e he => h e (List.mem_cons_of_mem _ he))

theorem dedupe_cons (e : Conflict) (l : List Conflict) :
    dedupe (e :: l) = List.foldl dedupStep [e] l := rfl

theorem dedupe_single_cluster (e0 : Conflict) (rest : List Conflict)
    (h : ∀ e ∈ rest, near e e0) : dedupe (e0 :: rest) = [e0] := by
  rw [dedupe_cons]
  exact foldl_dedupStep_stay rest [e0] (fun e he => ⟨e0, by simp, h e he⟩)

theorem foldl_dedupStep_mem :
    ∀ (l acc : List Conflict) (e : Conflict),
      e ∈ List.foldl dedupStep acc l → e ∈ acc ∨ e ∈ l := by
  intro l
  induction l with
  | nil => intro acc e he; exact Or.inl he
  | cons x xs ih =>
    intro acc e he
    rw [List.foldl_cons] at he
    rcases ih (dedupStep acc x) e he with h | h
    · rw [dedupStep] at h
      split at h
      · exact Or.inl h
      · rcases List.mem_append.mp h with h | h
        · exact Or.inl h
        · exact Or.inr (by simp at h; simp [h])
    · exact Or.inr (List.mem_cons_of_mem _ h)

theorem dedupe_subset (l : List Conflict) (e : Conflict) (he : e ∈ dedupe l) :
    e ∈ l := by
  rcases foldl_dedupStep_mem l [] e he with h | h
  · cases h
  · exact h

/-! Evaluation lemmas for the concrete inputs. -/

theorem round2_int_eval (n : ℤ) : round2 (n : ℚ) = n := by
  have h1 : ((100:ℚ) * n) = ((100 * n : ℤ) : ℚ) := by push_cast; ring
  have h2 : ¬(((100 * n : ℤ) : ℚ) - (⌊((100 * n : ℤ) : ℚ)⌋ : ℚ) = 1/2) := by
    rw [Int.floor_intCast]
    norm_num
  rw [round2, roundHEQ, h1, if_neg h2, round_intCast]
  push_cast
  field_simp

set_option maxHeartbeats 2000000 in
theorem raw_ce2_eval : rawConflicts ce2P ce2S "S" 1 = [ce2e1, ce2e2, ce2e3] := by
  have r0 : round2 (0:ℚ) = 0 := by exact_mod_cast round2_int_eval 0
  have r130 : round2 (130:ℚ) = 130 := by exact_mod_cast round2_int_eval 130
  have r260 : round2 (260:ℚ) = 260 := by exact_mod_cast round2_int_eval 260
  simp only [rawConflicts, ce2P, ce2S, pathMinTime, pathMaxTime,
    List.map_cons, List.map_nil, List.foldl_cons, List.foldl_nil, scanTimes]
  norm_num
  simp only [show ((52:ℤ)).toNat = 52 from rfl, List.range_succ, List.range_zero]
  norm_num [List.filterMap_append, List.filterMap, get_drone_position_at_time,
    findBrackets, bracketScan, r0, r130, r260, ce2e1, ce2e2, ce2e3]

theorem dedupe_ce2_eval : dedupe [ce2e1, ce2e2, ce2e3] = [ce2e1, ce2e2, ce2e3] := by
  have h12 : ¬ near ce2e2 ce2e1 := by
    simp only [near, ce2e1, ce2e2, primSpatialSq]
    norm_num
  have h13 : ¬ near ce2e3 ce2e1 := by
    simp only [near, ce2e1, ce2e3, primSpatialSq]
    norm_num
  have h23 : ¬ near ce2e3 ce2e2 := by
    simp only [near, ce2e2, ce2e3, primSpatialSq]
    norm_num
  have s2 : dedupStep [ce2e1] ce2e2 = [ce2e1, ce2e2] := by
    unfold dedupStep
    rw [if_neg (by simp [h12])]
    rfl
  have s3 : dedupStep [ce2e1, ce2e2] ce2e3 = [ce2e1, ce2e2, ce2e3] := by
    unfold dedupStep
    rw [if_neg (by simp [h13, h23])]
    rfl
  rw [dedupe_cons]
  simp only [List.foldl_cons, List.foldl_nil, s2, s3]

theorem raw_stat_eval : rawConflicts pathStat0 pathStat0 "x" 1
    = [statEv 0, statEv 5, statEv 10] := by
  have r0 : round2 (0:ℚ) = 0 := by exact_mod_cast round2_int_eval 0
  simp only [rawConflicts, pathStat0, pathMinTime, pathMaxTime,
    List.map_cons, List.map_nil, List.foldl_cons, List.foldl_nil, scanTimes]
  norm_num
  simp only [show ((2:ℤ)).toNat = 2 from rfl, List.range_succ, List.range_zero]
  norm_num [List.filterMap_append, List.filterMap, get_drone_position_at_time,
    findBrackets, bracketScan, r0, statEv]

/-- Counterexample for claim C2 as stated: the raw events of the ce2 pair
split into the two groups [ce2e1] and [ce2e2, ce2e3], every event of one
group more than 120 seconds and more than 50 units (squared distance above
2500) away from every event of the other, yet the scanner returns three
reports, not two: the claim omits that the groups must each be internally
clustered. -/
theorem claim_C2_counterexample :
    rawConflicts ce2P ce2S "S" 1 = [ce2e1] ++ [ce2e2, ce2e3]
    ∧ (∀ x ∈ [ce2e1], ∀ y ∈ [ce2e2, ce2e3],
        120 < |x.time - y.time| ∧ 2500 < primSpatialSq x y)
    ∧ (detect_path_conflicts ce2P ce2S "S" 1).length ≠ 2 := by
  refine ⟨raw_ce2_eval, ?_, ?_⟩
  · intro x hx y hy
    simp only [List.mem_singleton] at hx
    subst hx
    rcases List.mem_cons.mp hy with h | h
    · subst h
      constructor
      · simp only [ce2e1, ce2e2]
        norm_num
      · simp only [ce2e1, ce2e2, primSpatialSq]
        norm_num
    · simp only [List.mem_singleton] at h
      subst h
      constructor
      · simp only [ce2e1, ce2e3]
        norm_num
      · simp only [ce2e1, ce2e3, primSpatialSq]
        norm_num
  · rw [detect_path_conflicts, raw_ce2_eval, dedupe_ce2_eval]
    simp

/-- Claim C2 (amended): deduplication in detect_path_conflicts.  (1) If at
least one raw event is detected and all raw events lie pairwise within 120
seconds, exactly one report - the first event - is returned.  (2) If the
raw events split into two consecutive groups, each internally pairwise
within 120 seconds, and every event of one group is more than 120 seconds
and more than 50 units (squared primary-location distance above 2500) from
every event of the other, exactly the two group leaders are returned.
(3) A new event is discarded iff it is within 120 seconds or within 50
units of some already-accepted report, else appended.  The amendment adds
the internal-coherence requirement on each group in (2), which the
counterexample shows is necessary. -/
theorem claim_C2_dedup :
    (∀ (p s : List Waypoint) (sid : String) (safety : ℚ)
        (e0 : Conflict) (rest : List Conflict),
      rawConflicts p s sid safety = e0 :: rest →
      (∀ x ∈ e0 :: rest, ∀ y ∈ e0 :: rest, |x.time - y.time| ≤ 120) →
      detect_path_conflicts p s sid safety = [e0])
    ∧ (∀ (p s : List Waypoint) (sid : String) (safety : ℚ)
        (a0 b0 : Conflict) (ar br : List Conflict),
      rawConflicts p s sid safety = (a0 :: ar) ++ (b0 :: br) →
      (∀ x ∈ a0 :: ar, ∀ y ∈ a0 :: ar, |x.time - y.time| ≤ 120) →
      (∀ x ∈ b0 :: br, ∀ y ∈ b0 :: br, |x.time - y.time| ≤ 120) →
      (∀ x ∈ a0 :: ar, ∀ y ∈ b0 :: br,
        120 < |x.time - y.time| ∧ 2500 < primSpatialSq x y) →
      detect_path_conflicts p s sid safety = [a0, b0])
    ∧ (∀ (evs : List Conflict) (e : Conflict),
      dedupe (evs ++ [e])
        = if ∃ ex ∈ dedupe evs, near e ex then dedupe evs else dedupe evs ++ [e]) := by
  refine ⟨?_, ?_, ?_⟩
  · intro p s sid safety e0 rest hraw hall
    unfold detect_path_conflicts
    rw [hraw]
    apply dedupe_single_cluster
    intro e he
    exact Or.inl (hall e (List.mem_cons_of_mem _ he) e0 (by simp))
  · intro p s sid safety a0 b0 ar br hraw hg1 hg2 hcross
    unfold detect_path_conflicts
    rw [hraw]
    have hA : List.foldl dedupStep [] (a0 :: ar) = [a0] :=
      dedupe_single_cluster a0 ar
        (fun e he => Or.inl (hg1 e (List.mem_cons_of_mem _ he) a0 (by simp)))
    have hstep : dedupStep [a0] b0 = [a0, b0] := by
      unfold dedupStep
      rw [if_neg]
      · rfl
      · simp only [List.mem_singleton, exists_eq_left]
        intro hn
        rcases hn with hn | hn
        · rw [abs_sub_comm] at hn
          exact absurd hn (not_le.mpr (hcross a0 (by simp) b0 (by simp)).1)
        · rw [primSpatialSq_comm] at hn
          exact absurd hn (not_le.mpr (hcross a0 (by simp) b0 (by simp)).2)
    have hrest : List.foldl dedupStep [a0, b0] br = [a0, b0] :=
      foldl_dedupStep_stay br [a0, b0]
        (fun e he => ⟨b0, by simp,
          Or.inl (hg2 e (List.mem_cons_of_mem _ he) b0 (by simp))⟩)
    show List.foldl dedupStep [] ((a0 :: ar) ++ (b0 :: br)) = [a0, b0]
    rw [List.foldl_append, hA, List.foldl_cons, hstep, hrest]
  · intro evs e
    simp only [dedupe, List.foldl_append, List.foldl_cons, List.foldl_nil]
    rfl

/-- Witness for claim C2: a drone parked at the origin against itself with
safety distance 1 yields three raw events at seconds 0, 5 and 10, all
within 120 seconds of one another, and exactly one report, the event at
second 0. -/
theorem claim_C2_witness :
    rawConflicts pathStat0 pathStat0 "x" 1 = statEv 0 :: [statEv 5, statEv 10]
    ∧ (∀ x ∈ statEv 0 :: [statEv 5, statEv 10],
        ∀ y ∈ statEv 0 :: [statEv 5, statEv 10], |x.time - y.time| ≤ 120)
    ∧ detect_path_conflicts pathStat0 pathStat0 "x" 1 = [statEv 0] := by
  have hall : ∀ x ∈ statEv 0 :: [statEv 5, statEv 10],
      ∀ y ∈ statEv 0 :: [statEv 5, statEv 10], |x.time - y.time| ≤ 120 := by
    intro x hx y hy
    fin_cases hx <;> fin_cases hy <;> simp [statEv] <;> norm_num [abs_of_nonneg, abs_of_nonpos]
  exact ⟨raw_stat_eval, hall,
    claim_C2_dedup.1 pathStat0 pathStat0 "x" 1 (statEv 0) [statEv 5, statEv 10]
      raw_stat_eval hall⟩

/-! Helper lemmas about interpolation and path generation. -/

theorem interp_ne_nil (a b : Waypoint) (step : ℚ) :
    interpolate_waypoints a b step ≠ [] := by
  unfold interpolate_waypoints
  split
  · simp
  · simp [List.range_succ]

theorem interp_head (a b : Waypoint) (step : ℚ) :
    (interpolate_waypoints a b step).head? = some a := by
  unfold interpolate_waypoints
  split
  · rfl
  · rw [List.range_succ_eq_map, List.map_cons, List.head?_cons]
    have h0 : ∀ n : ℕ, interpFrac n 0 = 0 := by
      intro n
      unfold interpFrac
      split <;> simp
    simp [h0]

theorem gcp_single (w : Waypoint) (step : ℚ) :
    generate_continuous_path [w] step = [w] := rfl

theorem gcp_cons_cons (w1 w2 : Waypoint) (rest : List Waypoint) (step : ℚ) :
    generate_continuous_path (w1 :: w2 :: rest) step
      = interpolate_waypoints w1 w2 step
        ++ generate_continuous_path (w2 :: rest) step := by
  simp only [generate_continuous_path, List.tail_cons, List.zip_cons_cons,
    List.flatMap_cons, List.getLast?_cons_cons, List.append_assoc]

theorem gcp_head (w : Waypoint) (ws : List Waypoint) (step : ℚ) :
    (generate_continuous_path (w :: ws) step).head? = some w := by
  cases ws with
  | nil => rfl
  | cons v vs =>
    rw [gcp_cons_cons]
    cases h : interpolate_waypoints w v step with
    | nil => exact absurd h (interp_ne_nil w v step)
    | cons p tl =>
      have hp : p = w := by
        have := interp_head w v step
        rw [h, List.head?_cons] at this
        exact Option.some.inj this
      simp [hp]

/-- Claim C5: for every non-empty trajectory and every step, the generated
continuous path is non-empty, starts with the first waypoint (so with its
timestamp exactly) and ends with the last waypoint appended verbatim. -/
theorem claim_C5_endpoints (step : ℚ) (w : Waypoint) (ws : List Waypoint) :
    (generate_continuous_path (w :: ws) step).head? = some w
    ∧ ∃ lw, (w :: ws).getLast? = some lw
        ∧ (generate_continuous_path (w :: ws) step).getLast? = some lw := by
  refine ⟨gcp_head w ws step, ?_⟩
  obtain ⟨lw, hlw⟩ : ∃ lw, (w :: ws).getLast? = some lw :=
    ⟨(w :: ws).getLast (by simp), List.getLast?_eq_getLast _ _⟩
  refine ⟨lw, hlw, ?_⟩
  unfold generate_continuous_path
  rw [hlw]
  exact List.getLast?_concat _
theorem interp_times_chain (a b : Waypoint) (step : ℚ) (hstep : 0 < step) :
    List.Chain' (· ≤ ·) ((interpolate_waypoints a b step).map Waypoint.t) := by
  unfold interpolate_waypoints
  split
  · simp
  · rw [List.map_map]
    apply (List.chain'_map _).mpr
    rw [List.chain'_range_succ]
    intro m hm
    simp only [Function.comp]
    push_cast
    nlinarith

theorem interp_last_time_le (a b : Waypoint) (step : ℚ) (hstep : 0 < step)
    (hrel : a.t = b.t ∨ a.t + step ≤ b.t) :
    ∀ x ∈ ((interpolate_waypoints a b step).map Waypoint.t).getLast?, x ≤ b.t := by
  unfold interpolate_waypoints
  split
  · intro x hx
    simp only [List.map_cons, List.map_nil, List.getLast?_singleton,
      Option.mem_def, Option.some.injEq] at hx
    subst hx
    rcases hrel with h | h
    · exact le_of_eq h
    · linarith
  · rename_i hdur
    have hd : 0 < b.t - a.t := by linarith [not_le.mp hdur]
    have hstep_le : a.t + step ≤ b.t := by
      rcases hrel with h | h
      · exact absurd h (by intro he; rw [he] at hd; simp at hd)
      · exact h
    intro x hx
    rw [List.map_map, List.range_succ, List.map_append, List.map_singleton,
      List.getLast?_concat] at hx
    simp only [Option.mem_def, Option.some.injEq] at hx
    subst hx
    simp only [Function.comp]
    have h1 : (1:ℚ) ≤ (b.t - a.t) / step := (one_le_div hstep).mpr (by linarith)
    have h2 : 1 ≤ ⌊(b.t - a.t) / step⌋ := Int.le_floor.mpr (by exact_mod_cast h1)
    have hn : (numSteps (b.t - a.t) step : ℚ) ≤ (b.t - a.t) / step := by
      unfold numSteps
      rw [max_eq_right (by omega : 1 ≤ ⌊(b.t - a.t) / step⌋.toNat)]
      have hc : ((⌊(b.t - a.t) / step⌋.toNat : ℕ) : ℚ)
          = ((⌊(b.t - a.t) / step⌋ : ℤ) : ℚ) := by
        exact_mod_cast Int.toNat_of_nonneg (by omega)
      rw [hc]
      exact Int.floor_le _
    have hmul : (numSteps (b.t - a.t) step : ℚ) * step ≤ b.t - a.t := by
      have := mul_le_mul_of_nonneg_right hn (le_of_lt hstep)
      rwa [div_mul_cancel₀ _ (ne_of_gt hstep)] at this
    linarith

/-- Counterexample for claim C4 as stated: the time-sorted two-waypoint
trajectory from second 0 to second 1/2 (a well-formed fractional-second
timestamp) interpolated at the default step 1 yields path timestamps
0, 1, 1/2 - the sample at second 1 overshoots the segment and the verbatim
final waypoint steps back, so the timestamps are not non-decreasing. -/
theorem claim_C4_counterexample :
    timesSorted [⟨0,0,0,0⟩, ⟨1,0,0,(1:ℚ)/2⟩] ∧ (0:ℚ) < 1
    ∧ ¬ timesSorted (generate_continuous_path [⟨0,0,0,0⟩, ⟨1,0,0,(1:ℚ)/2⟩] 1) := by
  have hgcp : (generate_continuous_path [⟨0,0,0,0⟩, ⟨1,0,0,(1:ℚ)/2⟩] 1).map Waypoint.t
      = [0, 1, (1:ℚ)/2] := by
    rw [gcp_cons_cons, gcp_single]
    unfold interpolate_waypoints
    rw [if_neg (by norm_num)]
    have hfl : ⌊(((1:ℚ)/2 - 0) / 1)⌋ = 0 := by
      rw [Int.floor_eq_zero_iff]
      constructor
      · norm_num
      · norm_num
    have hn : numSteps ((1:ℚ)/2 - 0) 1 = 1 := by
      unfold numSteps
      rw [hfl]
      rfl
    rw [hn]
    simp [List.range_succ, interpFrac]
  refine ⟨?_, by norm_num, ?_⟩
  · unfold timesSorted
    simp only [List.map_cons, List.map_nil]
    exact List.chain'_cons.mpr ⟨by norm_num, List.chain'_singleton _⟩
  · intro h
    unfold timesSorted at h
    rw [hgcp] at h
    have h2 := (List.chain'_cons.mp h).2
    have h3 := (List.chain'_cons.mp h2).1
    norm_num at h3

/-- Claim C4 (amended): for every positive step and every trajectory whose
consecutive waypoints are either simultaneous or separated by at least the
step, the generated continuous path has non-decreasing timestamps.  The
amendment adds the per-segment duration condition (zero or at least one
step), which the counterexample - a sorted trajectory with a segment
shorter than the step - shows is necessary. -/
theorem claim_C4_sorted (step : ℚ) (hstep : 0 < step) :
    ∀ wps : List Waypoint,
      List.Chain' (fun a b => a.t = b.t ∨ a.t + step ≤ b.t) wps →
      timesSorted (generate_continuous_path wps step) := by
  intro wps
  induction wps with
  | nil => intro _; simp [generate_continuous_path, timesSorted]
  | cons w rest ih =>
    cases rest with
    | nil => intro _; rw [gcp_single]; simp [timesSorted]
    | cons v vs =>
      intro hch
      obtain ⟨hwv, hch'⟩ := List.chain'_cons.mp hch
      rw [gcp_cons_cons]
      unfold timesSorted
      rw [List.map_append, List.chain'_append]
      refine ⟨interp_times_chain w v step hstep, ih hch', ?_⟩
      intro x hx y hy
      cases hgl : generate_continuous_path (v :: vs) step with
      | nil =>
        rw [hgl] at hy
        simp at hy
      | cons hd tl =>
        have hhd : hd = v := by
          have := gcp_head v vs step
          rw [hgl, List.head?_cons] at this
          exact Option.some.inj this
        rw [hgl, hhd, List.map_cons, List.head?_cons] at hy
        simp only [Option.mem_def, Option.some.injEq] at hy
        subst hy
        exact interp_last_time_le w v step hstep hwv x hx

/-- Witness for claim C4 (amended): the two-waypoint trajectory with a
5-second segment at step 1 satisfies the duration condition and its
continuous path has non-decreasing timestamps. -/
theorem claim_C4_witness :
    List.Chain' (fun a b => a.t + 1 ≤ b.t ∨ a.t = b.t)
      [(⟨0,0,0,0⟩ : Waypoint), ⟨5,0,0,5⟩]
    ∧ timesSorted (generate_continuous_path [⟨0,0,0,0⟩, ⟨5,0,0,5⟩] 1) := by
  constructor
  · exact List.chain'_cons.mpr ⟨Or.inl (by norm_num), List.chain'_singleton _⟩
  · exact claim_C4_sorted 1 (by norm_num) _
      (List.chain'_cons.mpr ⟨Or.inr (by norm_num), List.chain'_singleton _⟩)

/-! Helper lemmas about sorted paths and bracketed interpolation. -/

theorem bracketScan_brackets (target : ℚ) :
    ∀ (l : List Waypoint) (b0 : Waypoint), b0.t ≤ target →
      (∃ p ∈ l, target < p.t) →
      ∃ b a, bracketScan target (some b0) l = (some b, some a)
        ∧ b.t ≤ target ∧ target < a.t := by
  intro l
  induction l with
  | nil =>
    intro b0 hb0 hex
    simp at hex
  | cons p rest ih =>
    intro b0 hb0 hex
    by_cases hp : p.t ≤ target
    · rw [bracketScan, if_pos hp]
      apply ih p hp
      rcases hex with ⟨q, hq, hqt⟩
      rcases List.mem_cons.mp hq with rfl | hq'
      · exact absurd hp (not_le.mpr hqt)
      · exact ⟨q, hq', hqt⟩
    · rw [bracketScan, if_neg hp]
      exact ⟨b0, p, rfl, hb0, not_le.mp hp⟩

theorem foldl_min_eq (a : ℚ) (l : List ℚ) (h : ∀ x ∈ l, a ≤ x) :
    l.foldl min a = a := by
  induction l generalizing a with
  | nil => rfl
  | cons x xs ih =>
    rw [List.foldl_cons, min_eq_left (h x (by simp))]
    exact ih a (fun y hy => h y (List.mem_cons_of_mem _ hy))

theorem sorted_pathMinTime (w : Waypoint) (ws : List Waypoint)
    (h : timesSorted (w :: ws)) : pathMinTime w ws = w.t := by
  unfold pathMinTime
  apply foldl_min_eq
  intro x hx
  have hp : (List.map Waypoint.t (w :: ws)).Pairwise (· ≤ ·) :=
    List.chain'_iff_pairwise.mp h
  rw [List.map_cons, List.pairwise_cons] at hp
  exact hp.1 x hx

theorem sorted_pathMaxTime (w : Waypoint) (ws : List Waypoint)
    (h : timesSorted (w :: ws)) :
    ∃ lw, (w :: ws).getLast? = some lw ∧ pathMaxTime w ws = lw.t := by
  induction ws generalizing w with
  | nil => exact ⟨w, rfl, rfl⟩
  | cons v vs ih =>
    simp only [timesSorted, List.map_cons] at h
    obtain ⟨hwv, h2⟩ := List.chain'_cons.mp h
    have h' : timesSorted (v :: vs) := by
      simp only [timesSorted, List.map_cons]
      exact h2
    obtain ⟨lw, h1, hmax⟩ := ih v h'
    refine ⟨lw, by rw [List.getLast?_cons_cons]; exact h1, ?_⟩
    unfold pathMaxTime at hmax ⊢
    rw [List.map_cons, List.foldl_cons, max_eq_right hwv]
    exact hmax

theorem convex_between (u v f : ℚ) (h0 : 0 ≤ f) (h1 : f ≤ 1) :
    min u v ≤ u + f * (v - u) ∧ u + f * (v - u) ≤ max u v := by
  rcases le_total u v with h | h
  · rw [min_eq_left h, max_eq_right h]
    constructor <;> nlinarith
  · rw [min_eq_right h, max_eq_left h]
    constructor <;> nlinarith

/-- Claim C7: on a time-sorted path, a query time strictly between the
path's minimum and maximum timestamps is answered by interpolating between
the two bracketing samples, and the returned position lies on every axis
between the bracketing samples' coordinates (no extrapolation). -/
theorem claim_C7_convex (w : Waypoint) (ws : List Waypoint) (target : ℚ)
    (hs : timesSorted (w :: ws))
    (hmin : pathMinTime w ws < target) (hmax : target < pathMaxTime w ws) :
    ∃ b a pos, findBrackets (w :: ws) target = (some b, some a)
      ∧ get_drone_position_at_time (w :: ws) target = some pos
      ∧ min b.x a.x ≤ pos.x ∧ pos.x ≤ max b.x a.x
      ∧ min b.y a.y ≤ pos.y ∧ pos.y ≤ max b.y a.y
      ∧ min b.z a.z ≤ pos.z ∧ pos.z ≤ max b.z a.z := by
  have hwt : w.t < target := by
    rw [← sorted_pathMinTime w ws hs]
    exact hmin
  obtain ⟨lw, hlast, hmaxeq⟩ := sorted_pathMaxTime w ws hs
  have hex : ∃ p ∈ w :: ws, target < p.t :=
    ⟨lw, List.mem_of_getLast?_eq_some hlast, by rw [← hmaxeq]; exact hmax⟩
  have hbr0 : findBrackets (w :: ws) target = bracketScan target (some w) ws := by
    unfold findBrackets
    rw [bracketScan, if_pos (le_of_lt hwt)]
  have hex' : ∃ p ∈ ws, target < p.t := by
    rcases hex with ⟨q, hq, hqt⟩
    rcases List.mem_cons.mp hq with rfl | hq'
    · exact absurd hqt (not_lt.mpr (le_of_lt hwt))
    · exact ⟨q, hq', hqt⟩
  obtain ⟨b, a, hbr, hbt, hat⟩ :=
    bracketScan_brackets target ws w (le_of_lt hwt) hex'
  have hfb : findBrackets (w :: ws) target = (some b, some a) := by
    rw [hbr0, hbr]
  have htot : ¬ (a.t - b.t = 0) := by
    intro h0
    have : a.t = b.t := by linarith
    rw [this] at hat
    exact absurd hat (not_lt.mpr hbt)
  have hf0 : 0 ≤ (target - b.t) / (a.t - b.t) :=
    div_nonneg (by linarith) (by linarith [lt_of_le_of_lt hbt hat])
  have hf1 : (target - b.t) / (a.t - b.t) ≤ 1 :=
    (div_le_one (by linarith [lt_of_le_of_lt hbt hat])).mpr (by linarith)
  refine ⟨b, a,
    ⟨b.x + (target - b.t) / (a.t - b.t) * (a.x - b.x),
     b.y + (target - b.t) / (a.t - b.t) * (a.y - b.y),
     b.z + (target - b.t) / (a.t - b.t) * (a.z - b.z), target⟩, hfb, ?_,
    (convex_between b.x a.x _ hf0 hf1).1, (convex_between b.x a.x _ hf0 hf1).2,
    (convex_between b.y a.y _ hf0 hf1).1, (convex_between b.y a.y _ hf0 hf1).2,
    (convex_between b.z a.z _ hf0 hf1).1, (convex_between b.z a.z _ hf0 hf1).2⟩
  unfold get_drone_position_at_time
  rw [hfb]
  dsimp only
  rw [if_neg htot]

/-- Witness for claim C7: on the sorted two-sample path from the origin at
second 0 to the point 10,10,10 at second 10, querying at second 5 stays
between the bracketing samples on every axis. -/
theorem claim_C7_witness :
    timesSorted [(⟨0,0,0,0⟩ : Waypoint), ⟨10,10,10,10⟩]
    ∧ pathMinTime ⟨0,0,0,0⟩ [⟨10,10,10,10⟩] < 5
    ∧ (5:ℚ) < pathMaxTime ⟨0,0,0,0⟩ [⟨10,10,10,10⟩]
    ∧ ∃ b a pos,
        findBrackets [(⟨0,0,0,0⟩ : Waypoint), ⟨10,10,10,10⟩] 5 = (some b, some a)
        ∧ get_drone_position_at_time [(⟨0,0,0,0⟩ : Waypoint), ⟨10,10,10,10⟩] 5 = some pos
        ∧ min b.x a.x ≤ pos.x ∧ pos.x ≤ max b.x a.x
        ∧ min b.y a.y ≤ pos.y ∧ pos.y ≤ max b.y a.y
        ∧ min b.z a.z ≤ pos.z ∧ pos.z ≤ max b.z a.z := by
  have hs : timesSorted [(⟨0,0,0,0⟩ : Waypoint), ⟨10,10,10,10⟩] := by
    unfold timesSorted
    simp only [List.map_cons, List.map_nil]
    exact List.chain'_cons.mpr ⟨by norm_num, List.chain'_singleton _⟩
  have hm1 : pathMinTime (⟨0,0,0,0⟩ : Waypoint) [⟨10,10,10,10⟩] < 5 := by
    unfold pathMinTime
    simp only [List.map_cons, List.map_nil, List.foldl_cons, List.foldl_nil]
    rw [min_eq_left (by norm_num : ((⟨0,0,0,0⟩ : Waypoint).t) ≤ (⟨10,10,10,10⟩ : Waypoint).t)]
    norm_num
  have hm2 : (5:ℚ) < pathMaxTime (⟨0,0,0,0⟩ : Waypoint) [⟨10,10,10,10⟩] := by
    unfold pathMaxTime
    simp only [List.map_cons, List.map_nil, List.foldl_cons, List.foldl_nil]
    rw [max_eq_right (by norm_num : ((⟨0,0,0,0⟩ : Waypoint).t) ≤ (⟨10,10,10,10⟩ : Waypoint).t)]
    norm_num
  exact ⟨hs, hm1, hm2, claim_C7_convex ⟨0,0,0,0⟩ [⟨10,10,10,10⟩] 5 hs hm1 hm2⟩

/-! Helper lemmas about the safety-distance guard and presentation rounding. -/

theorem raw_mem_guard (p s : List Waypoint) (sid : String) (safety : ℚ)
    (e : Conflict) (he : e ∈ rawConflicts p s sid safety) :
    0 ≤ safety ∧ e.distSq ≤ safety ^ 2 := by
  cases p with
  | nil => simp [rawConflicts] at he
  | cons p0 ps =>
    cases s with
    | nil => simp [rawConflicts] at he
    | cons s0 ss =>
      simp only [rawConflicts] at he
      split at he
      · simp at he
      · rw [List.mem_filterMap] at he
        obtain ⟨tm, htm, hf⟩ := he
        rcases hpp : get_drone_position_at_time (p0 :: ps) tm with _ | pp
        · rw [hpp] at hf
          simp at hf
        · rcases hsp : get_drone_position_at_time (s0 :: ss) tm with _ | sp
          · rw [hpp, hsp] at hf
            simp at hf
          · rw [hpp, hsp] at hf
            dsimp only at hf
            split at hf
            · rename_i hguard
              injection hf with hf'
              subst hf'
              exact ⟨hguard.1, hguard.2⟩
            · exact absurd hf (by simp)

theorem detect_mem_guard (p s : List Waypoint) (sid : String) (safety : ℚ)
    (e : Conflict) (he : e ∈ detect_path_conflicts p s sid safety) :
    0 ≤ safety ∧ e.distSq ≤ safety ^ 2 :=
  raw_mem_guard p s sid safety e (dedupe_subset _ e he)

theorem sqrt_distSq_le (e : Conflict) (safety : ℚ) (h0 : 0 ≤ safety)
    (hd : e.distSq ≤ safety ^ 2) :
    Real.sqrt (e.distSq : ℝ) ≤ (safety : ℝ) := by
  have h1 : (e.distSq : ℝ) ≤ ((safety : ℝ)) ^ 2 := by exact_mod_cast hd
  have h2 := Real.sqrt_le_sqrt h1
  rwa [Real.sqrt_sq (by exact_mod_cast h0)] at h2

theorem floor_half : ⌊(1/2 : ℝ)⌋ = 0 := by
  rw [Int.floor_eq_zero_iff, Set.mem_Ico]
  norm_num

theorem roundHER_le (y : ℝ) (k : ℤ) (h : y ≤ (k : ℝ)) : roundHER y ≤ k := by
  unfold roundHER
  split
  · rename_i htie
    have hlt : (⌊y⌋ : ℝ) < (k : ℝ) := by linarith
    have hzk : ⌊y⌋ < k := by exact_mod_cast hlt
    split
    · omega
    · omega
  · rw [round_eq]
    have h2 : ⌊y + 1/2⌋ ≤ ⌊(1/2 : ℝ) + (k : ℝ)⌋ := Int.floor_le_floor (by linarith)
    have h3 : ⌊(1/2 : ℝ) + (k : ℝ)⌋ = k := by
      rw [Int.floor_add_int, floor_half]
      omega
    omega

theorem reportedDist_le (e : Conflict) (safety : ℚ) (h0 : 0 ≤ safety)
    (hd : e.distSq ≤ safety ^ 2) (k : ℤ) (hk : 100 * safety = (k : ℚ)) :
    reportedDist e ≤ (safety : ℝ) := by
  have hsq := sqrt_distSq_le e safety h0 hd
  have hk' : ((k : ℤ) : ℝ) = 100 * (safety : ℝ) := by exact_mod_cast hk.symm
  have h3 : 100 * Real.sqrt (e.distSq : ℝ) ≤ (k : ℝ) := by
    rw [hk']
    nlinarith [hsq]
  have h4 := roundHER_le _ _ h3
  have h5 : ((roundHER (100 * Real.sqrt (e.distSq : ℝ)) : ℤ) : ℝ) ≤ (k : ℝ) := by
    exact_mod_cast h4
  unfold reportedDist
  rw [div_le_iff₀ (by norm_num : (0:ℝ) < 100)]
  linarith

theorem round2_06 : round2 (3/500) = 1/100 := by
  have h1 : ((100 : ℚ) * (3/500)) = 3/5 := by norm_num
  have h2 : ⌊(3/5 : ℚ)⌋ = 0 := by
    rw [Int.floor_eq_zero_iff, Set.mem_Ico]
    norm_num
  rw [round2, roundHEQ, h1, h2, if_neg (by norm_num), round_eq]
  have h3 : ((3:ℚ)/5 + 1/2) = 11/10 := by norm_num
  have h4 : ⌊(11/10 : ℚ)⌋ = 1 := by
    rw [Int.floor_eq_iff]
    norm_num
  rw [h3, h4]
  norm_num

theorem raw_stat6_eval (safety : ℚ) (hs0 : 0 ≤ safety)
    (hsq : 9/250000 ≤ safety ^ 2) :
    rawConflicts pathStat0 pathStat6 "S" safety
      = [statEv6 0, statEv6 5, statEv6 10] := by
  have r0 : round2 (0:ℚ) = 0 := by exact_mod_cast round2_int_eval 0
  simp only [rawConflicts, pathStat0, pathStat6, pathMinTime, pathMaxTime,
    List.map_cons, List.map_nil, List.foldl_cons, List.foldl_nil, scanTimes]
  norm_num
  simp only [show ((2:ℤ)).toNat = 2 from rfl, List.range_succ, List.range_zero]
  norm_num [List.filterMap_append, List.filterMap, get_drone_position_at_time,
    findBrackets, bracketScan, r0, round2_06, statEv6, hs0, hsq]

theorem statEv6_near (tm tm' : ℚ) (h1 : 0 ≤ tm - tm') (h2 : tm - tm' ≤ 120) :
    near (statEv6 tm) (statEv6 tm') := by
  left
  show |(statEv6 tm).time - (statEv6 tm').time| ≤ 120
  simp only [statEv6]
  rw [abs_of_nonneg h1]
  exact h2

theorem detect_stat6_eval (safety : ℚ) (hs0 : 0 ≤ safety)
    (hsq : 9/250000 ≤ safety ^ 2) :
    detect_path_conflicts pathStat0 pathStat6 "S" safety = [statEv6 0] := by
  unfold detect_path_conflicts
  rw [raw_stat6_eval safety hs0 hsq]
  apply dedupe_single_cluster
  intro e he
  rcases List.mem_cons.mp he with rfl | he'
  · exact statEv6_near 5 0 (by norm_num) (by norm_num)
  · rcases List.mem_cons.mp he' with rfl | he''
    · exact statEv6_near 10 0 (by norm_num) (by norm_num)
    · simp at he''

/-- Counterexample for claim C6 as stated: with safety threshold 0.006 the
stationary pair pathStat0/pathStat6 (true separation exactly 0.006) yields
one report, but the distance value the code stores - the true distance
rounded to two decimals, round(0.006, 2) = 0.01 - exceeds the threshold
that produced the report. -/
theorem claim_C6_counterexample :
    detect_path_conflicts pathStat0 pathStat6 "S" (3/500) = [statEv6 0]
    ∧ ((3/500 : ℚ) : ℝ) < reportedDist (statEv6 0) := by
  refine ⟨detect_stat6_eval (3/500) (by norm_num) (by norm_num), ?_⟩
  have hds : (statEv6 0).distSq = 9/250000 := rfl
  unfold reportedDist
  rw [hds]
  have hcast : ((9/250000 : ℚ) : ℝ) = ((3:ℝ)/500) ^ 2 := by
    push_cast
    norm_num
  have hsqrt : Real.sqrt ((9/250000 : ℚ) : ℝ) = 3/500 := by
    rw [hcast, Real.sqrt_sq (by norm_num)]
  rw [hsqrt, show (100:ℝ) * (3/500) = 3/5 by norm_num]
  have hfl : ⌊(3/5 : ℝ)⌋ = 0 := by
    rw [Int.floor_eq_zero_iff, Set.mem_Ico]
    norm_num
  have hr : roundHER (3/5 : ℝ) = 1 := by
    unfold roundHER
    rw [hfl, if_neg (by norm_num), round_eq,
      show (3/5 : ℝ) + 1/2 = 11/10 by norm_num, Int.floor_eq_iff]
    norm_num
  rw [hr]
  push_cast
  norm_num

/-- Claim C6 (amended): every report of detect_path_conflicts (and hence
every report in the details of check_deconfliction) has its true distance
within the safety threshold that produced it (distSq <= threshold squared,
so sqrt distSq <= threshold), and the two-decimal rounded distance value
the code stores is within the threshold whenever the threshold itself is
an integer multiple of 0.01 (in particular at the default 2.0).  The
amendment adds the multiple-of-0.01 condition for the stored rounded
value, which the counterexample (threshold 0.006) shows is necessary. -/
theorem claim_C6_distance_bound :
    (∀ (p s : List Waypoint) (sid : String) (safety : ℚ) (e : Conflict),
      e ∈ detect_path_conflicts p s sid safety →
      e.distSq ≤ safety ^ 2 ∧ Real.sqrt (e.distSq : ℝ) ≤ (safety : ℝ)
        ∧ ∀ k : ℤ, 100 * safety = (k : ℚ) → reportedDist e ≤ (safety : ℝ))
    ∧ (∀ (prim : List Waypoint) (flights : List SimFlight) (safety : ℚ)
        (e : Conflict),
      e ∈ (check_deconfliction prim flights safety).2 →
      e.distSq ≤ safety ^ 2 ∧ Real.sqrt (e.distSq : ℝ) ≤ (safety : ℝ)
        ∧ ∀ k : ℤ, 100 * safety = (k : ℚ) → reportedDist e ≤ (safety : ℝ)) := by
  have main : ∀ (p s : List Waypoint) (sid : String) (safety : ℚ) (e : Conflict),
      e ∈ detect_path_conflicts p s sid safety →
      e.distSq ≤ safety ^ 2 ∧ Real.sqrt (e.distSq : ℝ) ≤ (safety : ℝ)
        ∧ ∀ k : ℤ, 100 * safety = (k : ℚ) → reportedDist e ≤ (safety : ℝ) := by
    intro p s sid safety e he
    obtain ⟨h0, hd⟩ := detect_mem_guard p s sid safety e he
    exact ⟨hd, sqrt_distSq_le e safety h0 hd,
      fun k hk => reportedDist_le e safety h0 hd k hk⟩
  refine ⟨main, ?_⟩
  intro prim flights safety e he
  simp only [check_deconfliction] at he
  rw [List.mem_flatMap] at he
  obtain ⟨f, hf, he'⟩ := he
  exact main _ _ _ _ _ he'

/-- Witness for claim C6 (amended): with threshold 1 (which is 100/100),
the single report of the stationary pair has true distance 0.006 within 1
and stored rounded distance 0.01 within 1. -/
theorem claim_C6_witness :
    statEv6 0 ∈ detect_path_conflicts pathStat0 pathStat6 "S" 1
    ∧ 100 * (1:ℚ) = ((100:ℤ) : ℚ)
    ∧ (statEv6 0).distSq ≤ (1:ℚ) ^ 2
    ∧ Real.sqrt ((statEv6 0).distSq : ℝ) ≤ ((1:ℚ) : ℝ)
    ∧ reportedDist (statEv6 0) ≤ ((1:ℚ) : ℝ) := by
  have hmem : statEv6 0 ∈ detect_path_conflicts pathStat0 pathStat6 "S" 1 := by
    rw [detect_stat6_eval 1 (by norm_num) (by norm_num)]
    simp
  obtain ⟨h1, h2, h3⟩ :=
    claim_C6_distance_bound.1 pathStat0 pathStat6 "S" 1 (statEv6 0) hmem
  exact ⟨hmem, by norm_num, h1, h2, h3 100 (by norm_num)⟩

/-- Claim C8: a timestamp string none of the supported parsers accepts
(the isoformat parser fails on both the Z-normalised and the raw string,
and the bare time-of-day parse fails) never propagates a parse failure:
parse_time returns the current process time. -/
theorem claim_C8_fallback (fromiso : List Char → Option PyDateTime)
    (now : PyDateTime) (s : List Char)
    (h1 : fromiso (replaceZ s) = none) (h2 : fromiso s = none)
    (h3 : strptimeHMS s = none) :
    parse_time fromiso now s = now := by
  unfold parse_time
  split
  · by_cases hz : s.getLast? = some 'Z'
    · rw [if_pos hz, h1]
    · rw [if_neg hz, h2]
  · rw [h3]

/-- Witness for claim C8: the two-character string hi matches no format,
and so does the leap-second string 10:30:60, which datetime.strptime
rejects (ValueError from the datetime constructor); on both, parse_time
returns the supplied current time. -/
theorem claim_C8_witness :
    strptimeHMS ['h', 'i'] = none
    ∧ parse_time (fun _ => none) ⟨2025, 10, 12, 0, 0, 0⟩ ['h', 'i']
        = ⟨2025, 10, 12, 0, 0, 0⟩
    ∧ strptimeHMS ['1','0',':','3','0',':','6','0'] = none
    ∧ parse_time (fun _ => none) ⟨2025, 10, 12, 0, 0, 0⟩
        ['1','0',':','3','0',':','6','0'] = ⟨2025, 10, 12, 0, 0, 0⟩ :=
  ⟨by decide,
   claim_C8_fallback (fun _ => none) ⟨2025, 10, 12, 0, 0, 0⟩ ['h', 'i']
     rfl rfl (by decide),
   by decide,
   claim_C8_fallback (fun _ => none) ⟨2025, 10, 12, 0, 0, 0⟩
     ['1','0',':','3','0',':','6','0'] rfl rfl (by decide)⟩

/-- Claim C9 (code evaluated at the failing input): the bare time-of-day
string 10:30:00 is parsed by the strptime branch, whose missing date
directives default to 1900-01-01 - not to the current date as the claim,
the spec and the function's own docstring state.  The result is the same
for every current time now, so the date cannot come from it. -/
theorem claim_C9_strptime_date (fromiso : List Char → Option PyDateTime)
    (now : PyDateTime) :
    parse_time fromiso now ['1','0',':','3','0',':','0','0']
      = ⟨1900, 1, 1, 10, 30, 0⟩ := by
  rfl

end FlytBase
